import Mathlib

/- Verification development for the STRYKER signal-generation and backtesting
   pipeline.  The definitions below are a shallow embedding of the NLP engine,
   signal generator and backtest engine of the repository (src/src/app/page.tsx,
   with the buffered backtest simulator of the algorithm document).  JavaScript
   numbers are modelled as rationals, JavaScript 32-bit integer operations as
   integers with explicit reduction modulo 2^32. -/

namespace Stryker

/- Numeric helpers mirroring the JavaScript standard library. -/

/-- JavaScript Math.round: round half toward positive infinity. -/
def jsRound (x : ℚ) : ℤ := ⌊x + 1/2⌋

/-- Rounding to two decimal places, as in Math.round(x * 100) / 100. -/
def round2 (x : ℚ) : ℚ := (jsRound (x * 100) : ℚ) / 100

/-- Rounding to one decimal place, as in Math.round(x * 10) / 10. -/
def round1 (x : ℚ) : ℚ := (jsRound (x * 10) : ℚ) / 10

/-- JavaScript truthiness guard x || 1 on a rational number. -/
def jsOr1 (x : ℚ) : ℚ := if x = 0 then 1 else x

/-- Reduction of an integer into signed 32-bit range, as effected by | 0. -/
def toInt32 (x : ℤ) : ℤ := (x + 2 ^ 31) % 2 ^ 32 - 2 ^ 31

/- String helpers over the character list of a string, mirroring the
   JavaScript string operations used by the engines. -/

/-- Length of a string in characters (JavaScript .length on the ASCII
    text handled by the pipeline). -/
def strLen (s : String) : ℕ := s.toList.length

/-- Test whether string w ends with string suf. -/
def strEndsWith (w suf : String) : Bool := suf.toList.isSuffixOf w.toList

/-- Drop the last n characters of a string, as in slice(0, -n). -/
def strDropRight (w : String) (n : ℕ) : String :=
  String.mk (w.toList.take (w.toList.length - n))

/-- Word characters of the JavaScript regular-expression class backslash-w. -/
def isWordChar (c : Char) : Bool := c.isAlphanum || c = '_'

-- ═══════════════════════════════════════════════════════════════════
-- NLPEngine: lexicon, tokenizer, stemmer, sentiment
-- ═══════════════════════════════════════════════════════════════════

/-- Positive word set of the embedded Loughran-McDonald subset. -/
def positiveWords : List String :=
  ["achieve", "accomplishment", "advantage", "benefit", "breakthrough", "confident",
   "deliver", "enhance", "exceed", "excellent", "favorable", "gain", "growth",
   "improve", "innovation", "opportunity", "outperform", "positive", "profit",
   "progress", "recovery", "strength", "success", "superior", "upside", "value"]

/-- Negative word set of the embedded Loughran-McDonald subset. -/
def negativeWords : List String :=
  ["adverse", "challenge", "concern", "decline", "default", "deficit", "delay",
   "deteriorate", "difficult", "disappoint", "downgrade", "failure", "impair",
   "inability", "lawsuit", "liability", "litigation", "loss", "negative",
   "problem", "restructure", "risk", "shortfall", "threat", "uncertain", "weak"]

/-- Uncertainty word set of the embedded Loughran-McDonald subset. -/
def uncertaintyWords : List String :=
  ["anticipate", "approximate", "assume", "believe", "could", "depend", "estimate",
   "expect", "forecast", "hope", "intend", "likely", "may", "might", "outlook",
   "plan", "possible", "potential", "predict", "probable", "project", "should"]

/-- Splitting of a character list at every whitespace character.  Pieces
    between adjacent separators are empty and are removed by the length
    filter of the tokenizer, so this agrees with splitting on whitespace
    runs as the source regular expression does. -/
def splitWsAux : List Char → List Char → List (List Char)
  | [], acc => [acc.reverse]
  | c :: cs, acc =>
    if c.isWhitespace then acc.reverse :: splitWsAux cs []
    else splitWsAux cs (c :: acc)

/-- NLPEngine.tokenize: lowercase, replace non-word non-space characters by a
    space, split on whitespace, keep tokens of length greater than 2. -/
def tokenize (text : String) : List String :=
  let lowered := text.toList.map Char.toLower
  let cleaned := lowered.map (fun c => if isWordChar c || c.isWhitespace then c else ' ')
  ((splitWsAux cleaned []).map String.mk).filter (fun t => strLen t > 2)

/-- Suffix list of the simplified Porter stemmer, in priority order. -/
def stemSuffixes : List String := ["ing", "ed", "ly", "ness", "ment", "tion", "sion", "ity"]

/-- NLPEngine.stemWord: strip the first suffix of the priority list whose
    removal leaves a stem of length greater than 3. -/
def stemWord (word : String) : String :=
  match stemSuffixes.find? (fun suf => strEndsWith word suf && strLen word > strLen suf + 3) with
  | some suf => strDropRight word (strLen suf)
  | none => word

/-- Membership of a token in a word set, checked on the raw token and on its
    stemmed form. -/
def inLexicon (ws : List String) (token : String) : Bool :=
  ws.contains token || ws.contains (stemWord token)

/-- Count of tokens matching the positive word set. -/
def positiveCount (tokens : List String) : ℕ :=
  (tokens.filter (inLexicon positiveWords)).length

/-- Count of tokens matching the negative word set. -/
def negativeCount (tokens : List String) : ℕ :=
  (tokens.filter (inLexicon negativeWords)).length

/-- Count of tokens matching the uncertainty word set. -/
def uncertaintyCount (tokens : List String) : ℕ :=
  (tokens.filter (inLexicon uncertaintyWords)).length

/-- Token total floored at 1, as in tokens.length || 1. -/
def totalTokens (tokens : List String) : ℕ :=
  if tokens.length = 0 then 1 else tokens.length

/-- Unrounded positive percentage (positive / total) * 100. -/
def rawPositiveScore (tokens : List String) : ℚ :=
  (positiveCount tokens : ℚ) / (totalTokens tokens : ℚ) * 100

/-- Unrounded negative percentage (negative / total) * 100. -/
def rawNegativeScore (tokens : List String) : ℚ :=
  (negativeCount tokens : ℚ) / (totalTokens tokens : ℚ) * 100

/-- Unrounded neutral percentage 100 - positiveScore - negativeScore. -/
def rawNeutralScore (tokens : List String) : ℚ :=
  100 - rawPositiveScore tokens - rawNegativeScore tokens

/-- Unrounded confidence |positiveScore - negativeScore| + (100 - 10 u). -/
def rawSentimentConfidence (tokens : List String) : ℚ :=
  |rawPositiveScore tokens - rawNegativeScore tokens| + (100 - (uncertaintyCount tokens : ℚ) * 10)

/-- Sentiment record returned by NLPEngine.computeSentiment. -/
structure SentimentResult where
  positive : ℚ
  negative : ℚ
  neutral : ℚ
  confidence : ℤ
deriving DecidableEq, Repr

/-- NLPEngine.computeSentiment: percentage scores rounded to two decimals and
    an integer confidence clamped into [0, 100]. -/
def computeSentiment (tokens : List String) : SentimentResult :=
  { positive := round2 (rawPositiveScore tokens)
    negative := round2 (rawNegativeScore tokens)
    neutral := round2 (rawNeutralScore tokens)
    confidence := min 100 (max 0 (jsRound (rawSentimentConfidence tokens))) }

-- ═══════════════════════════════════════════════════════════════════
-- SignalGenerator: ensemble scoring and classification
-- ═══════════════════════════════════════════════════════════════════

/-- Trading decision of a generated signal. -/
inductive Decision where
  | BUY
  | HOLD
  | SELL
deriving DecidableEq, Repr

/-- Hard-coded fundamental score table of SignalGenerator. -/
def fundamentalsTable : List (String × ℚ) :=
  [("AAPL", 82/100), ("MSFT", 78/100), ("GOOGL", 75/100), ("NVDA", 88/100),
   ("AMZN", 65/100), ("META", 58/100), ("TSLA", 45/100), ("JPM", 72/100),
   ("V", 80/100), ("JNJ", 70/100)]

/-- Hard-coded technical score table of SignalGenerator. -/
def technicalsTable : List (String × ℚ) :=
  [("AAPL", 75/100), ("MSFT", 82/100), ("GOOGL", 68/100), ("NVDA", 91/100),
   ("AMZN", 55/100), ("META", 48/100), ("TSLA", 35/100), ("JPM", 65/100),
   ("V", 78/100), ("JNJ", 72/100)]

/-- SignalGenerator.computeFundamentalScore.  The random draw used for
    tickers absent from the table is passed in explicitly as r, the value
    of Math.random() in [0, 1). -/
def computeFundamentalScore (ticker : String) (r : ℚ) : ℚ :=
  match fundamentalsTable.lookup ticker with
  | some v => v
  | none => 1/2 + r * (4/10)

/-- SignalGenerator.computeTechnicalScore, with the random draw passed in
    explicitly as r. -/
def computeTechnicalScore (ticker : String) (r : ℚ) : ℚ :=
  match technicalsTable.lookup ticker with
  | some v => v
  | none => 4/10 + r * (5/10)

/-- Sentiment component of the composite: (positive - negative + 50) / 100,
    computed from the sentiment record with no clamping. -/
def sentimentScoreOf (s : SentimentResult) : ℚ :=
  (s.positive - s.negative + 50) / 100

/-- Ensemble composite with fixed weights 0.35, 0.35, 0.30. -/
def compositeOf (sent fund tech : ℚ) : ℚ :=
  (35/100) * sent + (35/100) * fund + (30/100) * tech

/-- Composite score of a generateSignal run, as a function of its inputs. -/
def compositeScoreOf (ticker : String) (s : SentimentResult) (rf rt : ℚ) : ℚ :=
  compositeOf (sentimentScoreOf s) (computeFundamentalScore ticker rf)
    (computeTechnicalScore ticker rt)

/-- Signal record produced by SignalGenerator.generateSignal. -/
structure SignalRec where
  ticker : String
  signal : Decision
  confidence : ℤ
  compSentiment : ℤ
  compFundamental : ℤ
  compTechnical : ℤ
  reasoning : List String
deriving DecidableEq, Repr

/-- SignalGenerator.generateSignal: ensemble aggregation, threshold
    classification and confidence computation.  The two Math.random()
    draws of the fundamental and technical fallbacks are the explicit
    arguments rf and rt. -/
def generateSignal (ticker : String) (sent : SentimentResult) (rf rt : ℚ) : SignalRec :=
  let sentimentScore := sentimentScoreOf sent
  let fundamentalScore := computeFundamentalScore ticker rf
  let technicalScore := computeTechnicalScore ticker rt
  let compositeScore := compositeOf sentimentScore fundamentalScore technicalScore
  let dec : Decision :=
    if compositeScore ≥ 65/100 then Decision.BUY
    else if compositeScore ≥ 40/100 then Decision.HOLD
    else Decision.SELL
  let reasoning : List String :=
    if compositeScore ≥ 65/100 then
      ["Strong positive sentiment detected in filings"] ++
        (if fundamentalScore > 7/10 then ["Solid fundamental metrics"] else []) ++
        (if technicalScore > 7/10 then ["Favorable technical setup"] else [])
    else if compositeScore ≥ 40/100 then
      ["Mixed signals from sentiment analysis", "Await clearer directional catalyst"]
    else
      ["Elevated negative sentiment in disclosures"] ++
        (if fundamentalScore < 4/10 then ["Deteriorating fundamentals"] else []) ++
        (if technicalScore < 4/10 then ["Weak technical indicators"] else [])
  { ticker := ticker
    signal := dec
    confidence := jsRound (|compositeScore - 1/2| * 200)
    compSentiment := jsRound (sentimentScore * 100)
    compFundamental := jsRound (fundamentalScore * 100)
    compTechnical := jsRound (technicalScore * 100)
    reasoning := reasoning }

/-- Clamping into the unit interval, as prescribed by the specification for
    the sentiment component (the source computes the component without it). -/
def clamp01Spec (x : ℚ) : ℚ := min 1 (max 0 x)

/-- Sentiment component as worded by the specification:
    clamp01((positive - negative + 50) / 100). -/
def specSentimentScore (s : SentimentResult) : ℚ :=
  clamp01Spec ((s.positive - s.negative + 50) / 100)

/-- Confidence as worded by the specification:
    round(clamp(0, 100, |composite - 0.5| * 200)). -/
def specConfidence (c : ℚ) : ℤ :=
  jsRound (min 100 (max 0 (|c - 1/2| * 200)))

-- ═══════════════════════════════════════════════════════════════════
-- NLPEngine: hash, embedding, key phrases
-- ═══════════════════════════════════════════════════════════════════

/-- NLPEngine.hashCode: the rolling 32-bit string hash
    hash = (hash << 5) - hash + charCode, truncated by | 0 each step. -/
def hashCode (s : String) : ℤ :=
  s.toList.foldl (fun h c => toInt32 (toInt32 (h * 32) - h + (c.toNat : ℤ))) 0

/-- NLPEngine.generateEmbedding.  The transcendental functions Math.sin and
    Math.sqrt are passed in as the abstract real-valued providers sinF and
    sqrtF; everything else follows the source: a 128-slot accumulator, a
    per-token contribution divided by (tokens.length || 1), normalization by
    the magnitude guarded by || 1, and rounding to three decimals. -/
def generateEmbedding (sinF sqrtF : ℚ → ℚ) (tokens : List String) : List ℚ :=
  let n : ℚ := jsOr1 (tokens.length : ℚ)
  let emb : List ℚ := (List.range 128).map (fun (i : ℕ) =>
    (tokens.map (fun t => sinF ((hashCode t : ℚ) * (((i + 1 : ℕ)) : ℚ) * (1/10)) / n)).sum)
  let magnitude : ℚ := jsOr1 (sqrtF (emb.map (fun v => v * v)).sum)
  emb.map (fun v => (jsRound (v / magnitude * 1000) : ℚ) / 1000)

/-- Insertion-order frequency map update, as performed on a JavaScript Map
    holding bigram counts. -/
def bumpCount (m : List (String × ℕ)) (k : String) : List (String × ℕ) :=
  match m with
  | [] => [(k, 1)]
  | (k₀, c) :: rest =>
    if k₀ = k then (k₀, c + 1) :: rest else (k₀, c) :: bumpCount rest k

/-- Stable insertion (descending by key) implementing the stable JavaScript
    sort with comparator b.count - a.count. -/
def insertDescBy {α : Type} (key : α → ℕ) (x : α) : List α → List α
  | [] => [x]
  | y :: ys =>
    if key x ≤ key y then y :: insertDescBy key x ys else x :: y :: ys

/-- Stable sort, descending by the given count. -/
def sortDescBy {α : Type} (key : α → ℕ) (l : List α) : List α :=
  l.foldl (fun acc x => insertDescBy key x acc) []

/-- Adjacent two-token windows joined by a space. -/
def bigrams (tokens : List String) : List String :=
  (tokens.zip (tokens.drop 1)).map (fun p => p.1 ++ " " ++ p.2)

/-- NLPEngine.extractKeyPhrases: bigram frequencies, keep bigrams occurring
    more than once with string length above 6, sort by descending frequency
    and keep the top 8. -/
def extractKeyPhrases (tokens : List String) : List String :=
  let freq := (bigrams tokens).foldl bumpCount []
  ((sortDescBy Prod.snd
      (freq.filter (fun pc => pc.2 > 1 && strLen pc.1 > 6))).take 8).map Prod.fst

-- ═══════════════════════════════════════════════════════════════════
-- NLPEngine: entity extraction (embedded regular-expression engine)
-- ═══════════════════════════════════════════════════════════════════

/-- Regular-expression abstract syntax sufficient for the five entity
    patterns of NLPEngine.extractEntities: character classes, literals
    (case sensitive and insensitive), sequencing, alternation, option and
    greedy class repetition with optional upper bound. -/
inductive RE where
  | cls (p : Char → Bool)
  | lit (s : String)
  | litCI (s : String)
  | seq (a b : RE)
  | alt (a b : RE)
  | opt (a : RE)
  | rep (p : Char → Bool) (lo : ℕ) (hi : Option ℕ)

/-- Greedy munching of characters from a class, bounded by the optional
    maximum count. -/
def takeClass (p : Char → Bool) : Option ℕ → List Char → List Char × List Char
  | some 0, cs => ([], cs)
  | _, [] => ([], [])
  | hi, c :: cs =>
    if p c then
      let r := takeClass p (hi.map (· - 1)) cs
      (c :: r.1, r.2)
    else ([], c :: cs)

/-- Greedy match of a pattern at the head of a character list, returning the
    matched characters and the remainder.  The quantified subpatterns of the
    five entity regular expressions are single character classes disjoint
    from the element that follows them, so the greedy semantics agrees with
    the backtracking JavaScript engine on these patterns. -/
def matchHere : RE → List Char → Option (List Char × List Char)
  | .cls _, [] => none
  | .cls p, c :: cs => if p c then some ([c], cs) else none
  | .lit s, cs =>
    if s.toList.isPrefixOf cs then some (s.toList, cs.drop s.toList.length) else none
  | .litCI s, cs =>
    let n := s.toList.length
    if (cs.take n).map Char.toLower = s.toList.map Char.toLower then
      some (cs.take n, cs.drop n)
    else none
  | .seq a b, cs =>
    match matchHere a cs with
    | none => none
    | some (m₁, r₁) =>
      match matchHere b r₁ with
      | none => none
      | some (m₂, r₂) => some (m₁ ++ m₂, r₂)
  | .alt a b, cs =>
    match matchHere a cs with
    | some r => some r
    | none => matchHere b cs
  | .opt a, cs =>
    match matchHere a cs with
    | some r => some r
    | none => some ([], cs)
  | .rep p lo hi, cs =>
    let r := takeClass p hi cs
    if lo ≤ r.1.length then some (r.1, r.2) else none

/-- Global scan collecting all non-overlapping matches left to right, as
    String.prototype.match does with the g flag; fuel is bounded by the
    text length. -/
def findMatchesAux (r : RE) : ℕ → List Char → List (List Char)
  | 0, _ => []
  | fuel + 1, cs =>
    match matchHere r cs with
    | some (m, rest) =>
      match m, cs with
      | [], [] => [[]]
      | [], _ :: t => [] :: findMatchesAux r fuel t
      | _, _ => m :: findMatchesAux r fuel rest
    | none =>
      match cs with
      | [] => []
      | _ :: t => findMatchesAux r fuel t

/-- All matches of a pattern in a text. -/
def findMatches (r : RE) (text : String) : List String :=
  (findMatchesAux r (text.toList.length + 1) text.toList).map String.mk

/-- Decimal digit class of backslash-d. -/
def digitChar (c : Char) : Bool := '0' ≤ c && c ≤ '9'

/-- Digit-or-comma class of the money pattern. -/
def digitComma (c : Char) : Bool := digitChar c || c = ','

/-- Whitespace class of backslash-s. -/
def wsChar (c : Char) : Bool := c.isWhitespace

/-- Slash-or-dash class of the date pattern. -/
def slashDash (c : Char) : Bool := c = '/' || c = '-'

/-- Money amounts: dollar sign, digits and commas, optional decimals,
    optional scale word. -/
def moneyRE : RE :=
  .seq (.lit "$")
    (.seq (.rep digitComma 1 none)
      (.seq (.opt (.seq (.lit ".") (.rep digitChar 1 none)))
        (.opt (.seq (.rep wsChar 0 none)
          (.alt (.litCI "million")
            (.alt (.litCI "billion") (.alt (.litCI "m") (.litCI "b"))))))))

/-- Fiscal periods: Q1-Q4 or FY, optional whitespace, four digits. -/
def fiscalRE : RE :=
  .seq (.alt (.seq (.litCI "q") (.cls (fun c => '1' ≤ c && c ≤ '4'))) (.litCI "fy"))
    (.seq (.rep wsChar 0 none) (.rep digitChar 4 (some 4)))

/-- Dates: one or two digits, slash or dash, one or two digits, slash or
    dash, two to four digits. -/
def dateRE : RE :=
  .seq (.rep digitChar 1 (some 2))
    (.seq (.cls slashDash)
      (.seq (.rep digitChar 1 (some 2))
        (.seq (.cls slashDash) (.rep digitChar 2 (some 4)))))

/-- Percentages: digits, optional decimals, optional whitespace, percent
    sign. -/
def percentRE : RE :=
  .seq (.rep digitChar 1 none)
    (.seq (.opt (.seq (.lit ".") (.rep digitChar 1 none)))
      (.seq (.rep wsChar 0 none) (.lit "%")))

/-- Role titles. -/
def roleRE : RE :=
  .alt (.litCI "ceo")
    (.alt (.litCI "cfo")
      (.alt (.litCI "cto")
        (.alt (.litCI "coo")
          (.alt (.litCI "president") (.alt (.litCI "chairman") (.litCI "director"))))))

/-- Ordered pattern list of NLPEngine.extractEntities. -/
def entityPatterns : List (RE × String) :=
  [(moneyRE, "MONEY"), (fiscalRE, "FISCAL_PERIOD"), (dateRE, "DATE"),
   (percentRE, "PERCENTAGE"), (roleRE, "ROLE")]

/-- Extracted entity: matched name, pattern type and occurrence count. -/
structure Entity where
  name : String
  type : String
  count : ℕ
deriving DecidableEq, Repr

/-- Insertion-order entity map update keyed on the trimmed match; the type
    of the first occurrence is kept. -/
def addEntityMatch (m : List Entity) (ty nm : String) : List Entity :=
  match m with
  | [] => [⟨nm, ty, 1⟩]
  | e :: rest =>
    if e.name = nm then { e with count := e.count + 1 } :: rest
    else e :: addEntityMatch rest ty nm

/-- NLPEngine.extractEntities: apply the five patterns in order against the
    raw text, accumulate counts by trimmed match, sort by descending count
    (stable) and keep the top 10. -/
def extractEntities (text : String) : List Entity :=
  let m := entityPatterns.foldl (fun acc p =>
    (findMatches p.1 text).foldl (fun a mt => addEntityMatch a p.2 mt.trim) acc) []
  (sortDescBy Entity.count m).take 10

-- ═══════════════════════════════════════════════════════════════════
-- NLPEngine.analyze
-- ═══════════════════════════════════════════════════════════════════

/-- Result record of NLPEngine.analyze. -/
structure NLPRecord where
  tokens : List String
  embeddings : List ℚ
  sentiment : SentimentResult
  entities : List Entity
  keyPhrases : List String
deriving DecidableEq, Repr

/-- NLPEngine.analyze: tokenize once, truncate only the reported token list
    to 50 entries, and compute embeddings, sentiment and key phrases from
    the full token sequence; entities come from the raw text.  All branches
    are total, so empty input cannot raise. -/
def analyze (sinF sqrtF : ℚ → ℚ) (text : String) : NLPRecord :=
  let tokens := tokenize text
  { tokens := tokens.take 50
    embeddings := generateEmbedding sinF sqrtF tokens
    sentiment := computeSentiment tokens
    entities := extractEntities text
    keyPhrases := extractKeyPhrases tokens }

-- ═══════════════════════════════════════════════════════════════════
-- BacktestEngine.backtest (the simulated metrics of the page source)
-- ═══════════════════════════════════════════════════════════════════

/-- Result record of BacktestEngine.backtest. -/
structure BacktestRec where
  sharpe : ℚ
  maxDrawdown : ℚ
  winRate : ℚ
  alpha : ℚ
  tradeCount : ℤ
  returns : ℚ
deriving DecidableEq, Repr

/-- Average signal confidence, with the length floored at 1. -/
def avgConfidence (signals : List SignalRec) : ℚ :=
  (signals.map (fun s => (s.confidence : ℚ))).sum /
    (if signals.length = 0 then 1 else (signals.length : ℚ))

/-- Number of BUY signals in a list. -/
def buySignalCount (signals : List SignalRec) : ℕ :=
  (signals.filter (fun s => s.signal = Decision.BUY)).length

/-- Fraction of BUY signals, with the length floored at 1. -/
def signalQuality (signals : List SignalRec) : ℚ :=
  (buySignalCount signals : ℚ) /
    (if signals.length = 0 then 1 else (signals.length : ℚ))

/-- BacktestEngine.backtest of the page source: simulated metrics derived
    from signal quality, not from an executed trade log.  The Math.random()
    draw of the drawdown line is the explicit argument r; the configuration
    record of the source is received and ignored exactly as the source
    ignores it. -/
def backtestStub (signals : List SignalRec) (_bufferDays _initialCapital : ℚ) (r : ℚ) :
    BacktestRec :=
  let avg := avgConfidence signals
  let quality := signalQuality signals
  let baseReturn := 15/100 + (avg / 100) * (1/10)
  let volatility := 18/100 - quality * (5/100)
  { sharpe := round2 (baseReturn / volatility)
    maxDrawdown := round2 (-8 - r * 10)
    winRate := round1 (55 + avg * (2/10))
    alpha := round1 ((baseReturn - 8/100) * 100)
    tradeCount := ⌊(signals.length : ℚ) * (5/2)⌋
    returns := round1 (baseReturn * 100) }

-- ═══════════════════════════════════════════════════════════════════
-- Buffered backtest simulator (algorithm document, section 7)
-- ═══════════════════════════════════════════════════════════════════

/-- Modelled from the spec: the trading-calendar service
    addTradingDays(date, n), absent from the source, advances one calendar
    day at a time and skips weekends.  Dates are integer day numbers with
    day 0 a Monday, so a date is a weekend exactly when its residue mod 7
    is 5 or 6.  Adding zero trading days returns the date unchanged. -/
def nextTradingDay (d : ℤ) : ℤ :=
  if (d + 1) % 7 = 5 then d + 3
  else if (d + 1) % 7 = 6 then d + 2
  else d + 1

/-- Modelled from the spec: iterated trading-day advance. -/
def addTradingDays (d : ℤ) : ℕ → ℤ
  | 0 => d
  | n + 1 => addTradingDays (nextTradingDay d) n

/-- Signal record consumed by the buffered backtest simulator. -/
structure BSignal where
  ticker : String
  timestamp : ℤ
  decision : Decision
deriving DecidableEq, Repr

/-- Executed trade of the buffered backtest simulator. -/
structure Trade where
  ticker : String
  side : Decision
  shares : ℤ
  price : ℚ
  date : ℤ
deriving DecidableEq, Repr

/-- Configuration of the buffered backtest simulator. -/
structure BConfig where
  bufferDays : ℕ
  initialCapital : ℚ
  positionWeight : ℚ
  slippage : ℚ
  endDate : ℤ
deriving DecidableEq, Repr

/-- Cash and positions ledger of one run. -/
structure Portfolio where
  cash : ℚ
  positions : List (String × ℤ)
deriving DecidableEq, Repr

/-- Position update for a BUY: add shares to the ticker entry, creating it
    if absent. -/
def posAdd (ps : List (String × ℤ)) (t : String) (sh : ℤ) : List (String × ℤ) :=
  match ps with
  | [] => [(t, sh)]
  | (t₀, s₀) :: rest =>
    if t₀ = t then (t₀, s₀ + sh) :: rest else (t₀, s₀) :: posAdd rest t sh

/-- Position removal for a SELL: full liquidation deletes the entry. -/
def posRemove (ps : List (String × ℤ)) (t : String) : List (String × ℤ) :=
  match ps with
  | [] => []
  | (t₀, s₀) :: rest =>
    if t₀ = t then rest else (t₀, s₀) :: posRemove rest t

/-- Modelled from the spec: portfolio equity marks positions to market at
    the supplied prices (cash plus shares times price); a missing price
    contributes nothing.  The algorithm document reads portfolio.equity
    without defining it. -/
def equityOf (port : Portfolio) (priceAt : String → Option ℚ) : ℚ :=
  port.cash + (port.positions.map (fun ts => (ts.2 : ℚ) * ((priceAt ts.1).getD 0))).sum

/-- Stable insertion by ascending timestamp: a later signal goes after
    earlier signals with the same timestamp. -/
def insertByTs (x : BSignal) : List BSignal → List BSignal
  | [] => [x]
  | y :: ys =>
    if y.timestamp ≤ x.timestamp then y :: insertByTs x ys else x :: y :: ys

/-- Stable ascending sort by timestamp, as Python sorted with a timestamp
    key. -/
def sortByTs (signals : List BSignal) : List BSignal :=
  signals.foldl (fun acc x => insertByTs x acc) []

/-- One step of the buffered backtest loop: compute the buffered execution
    date, skip past-end signals, look up the price (a missing price skips
    the signal, per the specification), size the position, and apply the
    BUY or SELL rules of the algorithm document. -/
def processSignal (cfg : BConfig) (prices : String → ℤ → Option ℚ)
    (st : Portfolio × List Trade) (s : BSignal) : Portfolio × List Trade :=
  let port := st.1
  let trades := st.2
  let execDate := addTradingDays s.timestamp cfg.bufferDays
  if execDate > cfg.endDate then (port, trades)
  else
    match prices s.ticker execDate with
    | none => (port, trades)
    | some price =>
      let positionSize := equityOf port (fun t => prices t execDate) * cfg.positionWeight
      if s.decision = Decision.BUY ∧ positionSize ≤ port.cash then
        let shares : ℤ := ⌊positionSize / price⌋
        let cost := (shares : ℚ) * price * (1 + cfg.slippage)
        ({ cash := port.cash - cost, positions := posAdd port.positions s.ticker shares },
         trades ++ [⟨s.ticker, Decision.BUY, shares, price, execDate⟩])
      else if s.decision = Decision.SELL ∧ (port.positions.lookup s.ticker).isSome then
        let shares := (port.positions.lookup s.ticker).getD 0
        let proceeds := (shares : ℚ) * price * (1 - cfg.slippage)
        ({ cash := port.cash + proceeds, positions := posRemove port.positions s.ticker },
         trades ++ [⟨s.ticker, Decision.SELL, shares, price, execDate⟩])
      else (port, trades)

/-- Buffered backtest simulator: sort signals by timestamp and fold the
    processing step over them starting from a fresh ledger. -/
def backtestWithBuffer (signals : List BSignal) (prices : String → ℤ → Option ℚ)
    (cfg : BConfig) : Portfolio × List Trade :=
  (sortByTs signals).foldl (processSignal cfg prices) (⟨cfg.initialCapital, []⟩, [])

/-- Configuration with a one-day buffer used by the no-look-ahead witness. -/
def cfgBuffer1 : BConfig := ⟨1, 100000, 1/10, 0, 20⟩

/-- Configuration with a zero-day buffer used by the no-look-ahead
    counterexample. -/
def cfgBuffer0 : BConfig := ⟨0, 100000, 1/10, 0, 20⟩

/-- A single BUY signal on day 0 (a Monday). -/
def buySignalX : BSignal := ⟨"X", 0, Decision.BUY⟩

/-- A price provider quoting 10 for every ticker on every date. -/
def flatPrices : String → ℤ → Option ℚ := fun _ _ => some 10

-- ═══════════════════════════════════════════════════════════════════
-- Helper lemmas
-- ═══════════════════════════════════════════════════════════════════

lemma round2_err (x : ℚ) : |round2 x - x| ≤ 1/200 := by
  have h1 : ((⌊x * 100 + 1/2⌋ : ℤ) : ℚ) ≤ x * 100 + 1/2 := Int.floor_le _
  have h2 : x * 100 + 1/2 - 1 < ((⌊x * 100 + 1/2⌋ : ℤ) : ℚ) := Int.sub_one_lt_floor _
  rw [round2, jsRound, abs_le]
  constructor <;> linarith

lemma concrete_counts :
    positiveCount ["growth", "profit", "gain"] = 3 ∧
    negativeCount ["growth", "profit", "gain"] = 0 ∧
    positiveCount ["growth", "growth", "risk"] = 2 ∧
    negativeCount ["growth", "growth", "risk"] = 1 ∧
    positiveCount ["growth", "risk", "table"] = 1 ∧
    negativeCount ["growth", "risk", "table"] = 1 := by decide

lemma sentiment_gpg_pos : (computeSentiment ["growth", "profit", "gain"]).positive = 100 := by
  simp only [computeSentiment, rawPositiveScore, totalTokens, concrete_counts.1]
  norm_num [round2, jsRound]

lemma sentiment_gpg_neg : (computeSentiment ["growth", "profit", "gain"]).negative = 0 := by
  simp only [computeSentiment, rawNegativeScore, totalTokens, concrete_counts.2.1]
  norm_num [round2, jsRound]

lemma generateSignal_signal_eq (ticker : String) (s : SentimentResult) (rf rt : ℚ) :
    (generateSignal ticker s rf rt).signal =
      (if compositeScoreOf ticker s rf rt ≥ 65/100 then Decision.BUY
       else if compositeScoreOf ticker s rf rt ≥ 40/100 then Decision.HOLD
       else Decision.SELL) := rfl

-- ═══════════════════════════════════════════════════════════════════
-- Claim theorems
-- ═══════════════════════════════════════════════════════════════════

/-- C2: for every ticker, sentiment record and pair of random draws, the
    generated signal is BUY exactly when the composite score is at least
    0.65, HOLD exactly when the composite lies in the half-open interval
    from 0.40 to 0.65, and SELL exactly when the composite is below 0.40;
    in particular both boundary values follow the closed-open rule. -/
theorem decision_matches_thresholds (ticker : String) (s : SentimentResult) (rf rt : ℚ) :
    ((generateSignal ticker s rf rt).signal = Decision.BUY ↔
      65/100 ≤ compositeScoreOf ticker s rf rt) ∧
    ((generateSignal ticker s rf rt).signal = Decision.HOLD ↔
      40/100 ≤ compositeScoreOf ticker s rf rt ∧ compositeScoreOf ticker s rf rt < 65/100) ∧
    ((generateSignal ticker s rf rt).signal = Decision.SELL ↔
      compositeScoreOf ticker s rf rt < 40/100) := by
  rw [generateSignal_signal_eq]
  split_ifs with h1 h2
  · rw [ge_iff_le] at h1
    refine ⟨?_, ?_, ?_⟩
    · exact ⟨fun _ => h1, fun _ => rfl⟩
    · constructor
      · intro h; exact absurd h (by decide)
      · intro h; exact absurd h1 (not_le.mpr h.2)
    · constructor
      · intro h; exact absurd h (by decide)
      · intro h; exact absurd h1 (not_le.mpr (h.trans_le (by norm_num)))
  · rw [ge_iff_le, not_le] at h1
    rw [ge_iff_le] at h2
    refine ⟨?_, ?_, ?_⟩
    · constructor
      · intro h; exact absurd h (by decide)
      · intro h; exact absurd h1 (not_lt.mpr h)
    · exact ⟨fun _ => ⟨h2, h1⟩, fun _ => rfl⟩
    · constructor
      · intro h; exact absurd h (by decide)
      · intro h; exact absurd h2 (not_le.mpr h)
  · rw [ge_iff_le, not_le] at h1 h2
    refine ⟨?_, ?_, ?_⟩
    · constructor
      · intro h; exact absurd h (by decide)
      · intro h; exact absurd h (not_le.mpr (h2.trans_le (by norm_num)))
    · constructor
      · intro h; exact absurd h (by decide)
      · intro h; exact absurd h.1 (not_le.mpr h2)
    · exact ⟨fun _ => h2, fun _ => rfl⟩

/-- C3 counterexample: on the sentiment record produced from the all-positive
    token list, the sentiment component computed by the source is 1.5, which
    lies outside the unit interval and differs from the clamped value of the
    specification formula, refuting the claim that the component is clamped
    to the unit interval. -/
theorem sentiment_component_not_clamped :
    sentimentScoreOf (computeSentiment ["growth", "profit", "gain"]) = 3/2 ∧
    specSentimentScore (computeSentiment ["growth", "profit", "gain"]) = 1 ∧
    1 < sentimentScoreOf (computeSentiment ["growth", "profit", "gain"]) := by
  rw [sentimentScoreOf, specSentimentScore, sentiment_gpg_pos, sentiment_gpg_neg]
  norm_num [clamp01Spec]

/-- C3 amended: the sentiment component is the unclamped affine expression
    (positive - negative + 50) / 100, so it lies in the unit interval exactly
    when positive - negative lies in the band from -50 to 50. -/
theorem sentiment_component_unit_range (s : SentimentResult) :
    (0 ≤ sentimentScoreOf s ∧ sentimentScoreOf s ≤ 1) ↔
      (-50 ≤ s.positive - s.negative ∧ s.positive - s.negative ≤ 50) := by
  rw [sentimentScoreOf]
  have h100 : (0:ℚ) < 100 := by norm_num
  rw [le_div_iff₀ h100, div_le_one h100]
  constructor <;> rintro ⟨hl, hr⟩ <;> constructor <;> linarith

/-- C4 counterexample: for ticker NVDA and the all-positive sentiment record,
    the source confidence is 121, outside the range 0 to 100, while the
    clamped specification formula gives 100; the claim that confidence is
    always clamped into the range 0 to 100 is refuted. -/
theorem confidence_not_clamped :
    (generateSignal "NVDA" (computeSentiment ["growth", "profit", "gain"]) 0 0).confidence
      = 121 ∧
    ¬ ((generateSignal "NVDA" (computeSentiment ["growth", "profit", "gain"]) 0 0).confidence
      ≤ 100) ∧
    specConfidence
      (compositeScoreOf "NVDA" (computeSentiment ["growth", "profit", "gain"]) 0 0) = 100 := by
  have hf : fundamentalsTable.lookup "NVDA" = some (88/100) := rfl
  have ht : technicalsTable.lookup "NVDA" = some (91/100) := rfl
  have hc : compositeScoreOf "NVDA" (computeSentiment ["growth", "profit", "gain"]) 0 0
      = 553/500 := by
    rw [compositeScoreOf, sentimentScoreOf, sentiment_gpg_pos, sentiment_gpg_neg,
      computeFundamentalScore, computeTechnicalScore, hf, ht]
    norm_num [compositeOf]
  have hconf : SignalRec.confidence
      (generateSignal "NVDA" (computeSentiment ["growth", "profit", "gain"]) 0 0) =
      jsRound (|compositeScoreOf "NVDA"
        (computeSentiment ["growth", "profit", "gain"]) 0 0 - 1/2| * 200) := rfl
  rw [hconf, specConfidence, hc]
  have habs : |(553:ℚ)/500 - 1/2| = 303/500 := by
    rw [show (553:ℚ)/500 - 1/2 = 303/500 by norm_num, abs_of_nonneg (by norm_num : (0:ℚ) ≤ 303/500)]
  rw [habs]
  norm_num [jsRound, min_def, max_def]

/-- C4 amended: the confidence equals round(|composite - 0.5| * 200) with no
    clamping; whenever the composite lies in the unit interval the confidence
    lies in the range 0 to 100. -/
theorem confidence_range_when_composite_unit (ticker : String) (s : SentimentResult)
    (rf rt : ℚ) (h0 : 0 ≤ compositeScoreOf ticker s rf rt)
    (h1 : compositeScoreOf ticker s rf rt ≤ 1) :
    (generateSignal ticker s rf rt).confidence =
      jsRound (|compositeScoreOf ticker s rf rt - 1/2| * 200) ∧
    0 ≤ (generateSignal ticker s rf rt).confidence ∧
    (generateSignal ticker s rf rt).confidence ≤ 100 := by
  have hc : SignalRec.confidence (generateSignal ticker s rf rt) =
      jsRound (|compositeScoreOf ticker s rf rt - 1/2| * 200) := rfl
  refine ⟨hc, ?_, ?_⟩ <;> rw [hc, jsRound]
  · refine Int.le_floor.mpr ?_
    have := abs_nonneg (compositeScoreOf ticker s rf rt - 1/2)
    push_cast
    nlinarith
  · have habs : |compositeScoreOf ticker s rf rt - 1/2| ≤ 1/2 := by
      rw [abs_le]; constructor <;> linarith
    have hle : (⌊|compositeScoreOf ticker s rf rt - 1/2| * 200 + 1/2⌋ : ℤ) ≤ ⌊(201/2 : ℚ)⌋ :=
      Int.floor_le_floor (by nlinarith)
    exact hle.trans (by norm_num)

/-- C4 witness: a concrete in-range instantiation of the amended confidence
    theorem at ticker AAPL and a neutral sentiment record. -/
theorem confidence_range_witness :
    (generateSignal "AAPL" ⟨0, 0, 100, 100⟩ 0 0).confidence =
      jsRound (|compositeScoreOf "AAPL" ⟨0, 0, 100, 100⟩ 0 0 - 1/2| * 200) ∧
    0 ≤ (generateSignal "AAPL" ⟨0, 0, 100, 100⟩ 0 0).confidence ∧
    (generateSignal "AAPL" ⟨0, 0, 100, 100⟩ 0 0).confidence ≤ 100 :=
  confidence_range_when_composite_unit "AAPL" ⟨0, 0, 100, 100⟩ 0 0
    (by
      have hf : fundamentalsTable.lookup "AAPL" = some (82/100) := rfl
      have ht : technicalsTable.lookup "AAPL" = some (75/100) := rfl
      rw [compositeScoreOf, sentimentScoreOf, computeFundamentalScore,
        computeTechnicalScore, hf, ht]
      norm_num [compositeOf])
    (by
      have hf : fundamentalsTable.lookup "AAPL" = some (82/100) := rfl
      have ht : technicalsTable.lookup "AAPL" = some (75/100) := rfl
      rw [compositeScoreOf, sentimentScoreOf, computeFundamentalScore,
        computeTechnicalScore, hf, ht]
      norm_num [compositeOf])

/-- C6: on the token sequence growth, growth, risk — growth being a positive
    lexicon word and risk a negative one — the sentiment computation returns
    a positive score of 66.67 and a negative score of 33.33, the two-decimal
    percentages over the 3 tokens. -/
theorem scenario_a_growth_growth_risk :
    positiveWords.contains "growth" = true ∧
    negativeWords.contains "risk" = true ∧
    (computeSentiment ["growth", "growth", "risk"]).positive = 6667/100 ∧
    (computeSentiment ["growth", "growth", "risk"]).negative = 3333/100 := by
  refine ⟨by decide, by decide, ?_, ?_⟩
  · simp only [computeSentiment, rawPositiveScore, totalTokens, concrete_counts.2.2.1]
    norm_num [round2, jsRound]
  · simp only [computeSentiment, rawNegativeScore, totalTokens, concrete_counts.2.2.2.1]
    norm_num [round2, jsRound]

/-- C7 counterexample: on the token sequence growth, risk, table the returned
    rounded fields are positive 33.33, negative 33.33 and neutral 33.33,
    while 100 - positive - negative over the returned fields equals 33.34, so
    the claimed equation fails on the returned fields. -/
theorem neutral_equation_fails_on_returned_fields :
    (computeSentiment ["growth", "risk", "table"]).neutral = 3333/100 ∧
    100 - (computeSentiment ["growth", "risk", "table"]).positive
        - (computeSentiment ["growth", "risk", "table"]).negative = 3334/100 ∧
    (computeSentiment ["growth", "risk", "table"]).neutral ≠
      100 - (computeSentiment ["growth", "risk", "table"]).positive
          - (computeSentiment ["growth", "risk", "table"]).negative := by
  have hp : (computeSentiment ["growth", "risk", "table"]).positive = 3333/100 := by
    simp only [computeSentiment, rawPositiveScore, totalTokens, concrete_counts.2.2.2.2.1]
    norm_num [round2, jsRound]
  have hn : (computeSentiment ["growth", "risk", "table"]).negative = 3333/100 := by
    simp only [computeSentiment, rawNegativeScore, totalTokens, concrete_counts.2.2.2.2.2]
    norm_num [round2, jsRound]
  have hm : (computeSentiment ["growth", "risk", "table"]).neutral = 3333/100 := by
    simp only [computeSentiment, rawNeutralScore, rawPositiveScore, rawNegativeScore,
      totalTokens, concrete_counts.2.2.2.2.1, concrete_counts.2.2.2.2.2]
    norm_num [round2, jsRound]
  rw [hp, hn, hm]
  norm_num

/-- C7 amended: the returned neutral field is the two-decimal rounding of
    100 minus the unrounded positive and negative percentages — the equation
    holds exactly on the unrounded scores and is unclamped — and over the
    returned rounded fields the equation holds up to a rounding deviation of
    at most 0.015. -/
theorem neutral_is_rounded_complement (tokens : List String) :
    (computeSentiment tokens).neutral =
      round2 (100 - rawPositiveScore tokens - rawNegativeScore tokens) ∧
    |(computeSentiment tokens).neutral -
      (100 - (computeSentiment tokens).positive - (computeSentiment tokens).negative)|
      ≤ 3/200 := by
  refine ⟨rfl, ?_⟩
  have e1 := round2_err (100 - rawPositiveScore tokens - rawNegativeScore tokens)
  have e2 := round2_err (rawPositiveScore tokens)
  have e3 := round2_err (rawNegativeScore tokens)
  have hm : (computeSentiment tokens).neutral =
      round2 (100 - rawPositiveScore tokens - rawNegativeScore tokens) := rfl
  have hp : (computeSentiment tokens).positive = round2 (rawPositiveScore tokens) := rfl
  have hn : (computeSentiment tokens).negative = round2 (rawNegativeScore tokens) := rfl
  rw [hm, hp, hn, abs_le] at *
  constructor <;> linarith [e1.1, e1.2, e2.1, e2.2, e3.1, e3.2]

/-- C8: on a document with empty raw text, analyze is total and returns an
    empty token sequence, no entities, no key phrases, zero positive,
    negative and uncertainty counts, and zero positive and negative scores
    in the sentiment record. -/
theorem analyze_empty_text (sinF sqrtF : ℚ → ℚ) :
    (analyze sinF sqrtF "").tokens = [] ∧
    (analyze sinF sqrtF "").entities = [] ∧
    (analyze sinF sqrtF "").keyPhrases = [] ∧
    positiveCount (tokenize "") = 0 ∧
    negativeCount (tokenize "") = 0 ∧
    uncertaintyCount (tokenize "") = 0 ∧
    (analyze sinF sqrtF "").sentiment.positive = 0 ∧
    (analyze sinF sqrtF "").sentiment.negative = 0 := by
  have htok : tokenize "" = [] := by decide
  have hent : extractEntities "" = [] := by decide
  have hsent : (analyze sinF sqrtF "").sentiment = computeSentiment (tokenize "") := rfl
  refine ⟨?_, ?_, ?_, by decide, by decide, by decide, ?_, ?_⟩
  · show (tokenize "").take 50 = []
    rw [htok]; rfl
  · exact hent
  · show extractKeyPhrases (tokenize "") = []
    rw [htok]; rfl
  · rw [hsent, htok]
    show round2 (rawPositiveScore []) = 0
    norm_num [rawPositiveScore, totalTokens, positiveCount, round2, jsRound]
  · rw [hsent, htok]
    show round2 (rawNegativeScore []) = 0
    norm_num [rawNegativeScore, totalTokens, negativeCount, round2, jsRound]

/-- C9: for every input text, the token field reported by analyze is the
    50-entry truncation of the tokenization — hence never longer than 50 —
    while the sentiment, embedding and key-phrase fields are computed from
    the full untruncated token sequence. -/
theorem analyze_truncates_only_tokens (sinF sqrtF : ℚ → ℚ) (text : String) :
    (analyze sinF sqrtF text).tokens = (tokenize text).take 50 ∧
    (analyze sinF sqrtF text).tokens.length ≤ 50 ∧
    (analyze sinF sqrtF text).sentiment = computeSentiment (tokenize text) ∧
    (analyze sinF sqrtF text).embeddings = generateEmbedding sinF sqrtF (tokenize text) ∧
    (analyze sinF sqrtF text).keyPhrases = extractKeyPhrases (tokenize text) := by
  refine ⟨rfl, ?_, rfl, rfl, rfl⟩
  show ((tokenize text).take 50).length ≤ 50
  rw [List.length_take]
  exact min_le_left _ _

/-- C10: the embedding generator always returns a vector of exactly 128
    numbers; on the empty token list it returns the all-zero vector because
    the zero magnitude is replaced by 1 before normalizing; and the guard
    substituting 1 for a zero divisor never yields a zero divisor. -/
theorem embedding_guarded_128 (sinF sqrtF : ℚ → ℚ) (h : sqrtF 0 = 0) :
    (∀ tokens, (generateEmbedding sinF sqrtF tokens).length = 128) ∧
    generateEmbedding sinF sqrtF [] = List.replicate 128 0 ∧
    (∀ q : ℚ, jsOr1 q ≠ 0) := by
  have hguard : ∀ q : ℚ, jsOr1 q ≠ 0 := by
    intro q
    rw [jsOr1]
    split_ifs with hq
    · exact one_ne_zero
    · exact hq
  refine ⟨?_, ?_, hguard⟩
  · intro tokens
    rw [generateEmbedding]
    simp [List.length_map, List.length_range]
  · rw [generateEmbedding]
    simp only [List.map_nil, List.sum_nil, List.length_nil]
    have hz : (List.range 128).map (fun _ : ℕ => (0:ℚ)) = List.replicate 128 0 := by
      rw [List.map_const']
      simp
    rw [hz]
    have hsq : ((List.replicate 128 (0:ℚ)).map (fun v => v * v)).sum = 0 := by
      rw [List.map_replicate]
      simp
    rw [hsq, h]
    have h1 : jsOr1 0 = 1 := by rw [jsOr1]; simp
    rw [h1, List.map_replicate]
    norm_num [jsRound]

/-- C10 witness: the length and empty-input conclusions instantiated at the
    zero sine provider and the identity square-root provider. -/
theorem embedding_guarded_128_witness :
    (generateEmbedding (fun _ => 0) (fun q => q) ["growth"]).length = 128 ∧
    generateEmbedding (fun _ => 0) (fun q => q) [] = List.replicate 128 0 :=
  ⟨(embedding_guarded_128 (fun _ => 0) (fun q => q) rfl).1 ["growth"],
   (embedding_guarded_128 (fun _ => 0) (fun q => q) rfl).2.1⟩

lemma conf_sum_le (l : List SignalRec) (h : ∀ s ∈ l, (s.confidence : ℚ) ≤ 100) :
    (l.map (fun s => (s.confidence : ℚ))).sum ≤ (l.length : ℚ) * 100 := by
  induction l with
  | nil => simp
  | cons a t ih =>
    simp only [List.map_cons, List.sum_cons, List.length_cons]
    have ha := h a (List.mem_cons_self a t)
    have ht := ih (fun s hs => h s (List.mem_cons_of_mem a hs))
    push_cast
    linarith

lemma avgConfidence_bounds (signals : List SignalRec)
    (h : ∀ s ∈ signals, 0 ≤ s.confidence ∧ s.confidence ≤ 100) :
    0 ≤ avgConfidence signals ∧ avgConfidence signals ≤ 100 := by
  rw [avgConfidence]
  rcases Nat.eq_zero_or_pos signals.length with hl | hl
  · have hnil : signals = [] := List.length_eq_zero.mp hl
    subst hnil
    simp
  · have hne : signals.length ≠ 0 := Nat.pos_iff_ne_zero.mp hl
    rw [if_neg hne]
    have hpos : (0:ℚ) < (signals.length : ℚ) := by exact_mod_cast hl
    have hsum0 : 0 ≤ (signals.map (fun s => (s.confidence : ℚ))).sum := by
      refine List.sum_nonneg ?_
      intro x hx
      rcases List.mem_map.mp hx with ⟨s, hs, rfl⟩
      exact_mod_cast (h s hs).1
    have hsum1 : (signals.map (fun s => (s.confidence : ℚ))).sum
        ≤ (signals.length : ℚ) * 100 :=
      conf_sum_le signals (fun s hs => by exact_mod_cast (h s hs).2)
    constructor
    · exact div_nonneg hsum0 hpos.le
    · rw [div_le_iff₀ hpos]
      linarith

lemma round1_bounds_55_75 {x : ℚ} (hlo : 55 ≤ x) (hhi : x ≤ 75) :
    55 ≤ round1 x ∧ round1 x ≤ 75 := by
  rw [round1, jsRound]
  constructor
  · have hfl : (550:ℤ) ≤ ⌊x * 10 + 1/2⌋ := Int.le_floor.mpr (by push_cast; linarith)
    have hq : ((550:ℤ):ℚ) ≤ ((⌊x * 10 + 1/2⌋ : ℤ) : ℚ) := by exact_mod_cast hfl
    push_cast at hq
    linarith
  · have h1 : (⌊x * 10 + 1/2⌋ : ℤ) ≤ ⌊(1501/2 : ℚ)⌋ := Int.floor_le_floor (by linarith)
    have h2 : (⌊(1501/2:ℚ)⌋ : ℤ) = 750 := by norm_num
    have hq : ((⌊x * 10 + 1/2⌋ : ℤ) : ℚ) ≤ 750 := by exact_mod_cast h1.trans_eq h2
    linarith

/-- C5 counterexample: on the empty signal list, the winRate field returned
    by the backtest engine is 55 — a simulated percentage — which is not in
    the unit interval, refuting the claim that winRate is a fraction in the
    range 0 to 1 of profitable closed round trips. -/
theorem win_rate_not_unit_fraction :
    (backtestStub [] 5 100000 0).winRate = 55 ∧
    ¬ ((backtestStub [] 5 100000 0).winRate ≤ 1) := by
  have hw : (backtestStub [] 5 100000 0).winRate =
      round1 (55 + avgConfidence [] * (2/10)) := rfl
  have ha : avgConfidence [] = 0 := by simp [avgConfidence]
  rw [hw, ha]
  norm_num [round1, jsRound]

/-- C5 amended: the winRate field is the simulated value
    round1(55 + avgConfidence / 5), derived from average signal confidence
    rather than from closed round trips; whenever every signal confidence
    lies in 0 to 100 it lies between 55 and 75, a percentage scale rather
    than the unit interval. -/
theorem win_rate_is_simulated_percentage (signals : List SignalRec) (b c r : ℚ)
    (h : ∀ s ∈ signals, 0 ≤ s.confidence ∧ s.confidence ≤ 100) :
    (backtestStub signals b c r).winRate = round1 (55 + avgConfidence signals * (2/10)) ∧
    55 ≤ (backtestStub signals b c r).winRate ∧
    (backtestStub signals b c r).winRate ≤ 75 := by
  have havg := avgConfidence_bounds signals h
  have hw : (backtestStub signals b c r).winRate =
      round1 (55 + avgConfidence signals * (2/10)) := rfl
  have hb := round1_bounds_55_75 (x := 55 + avgConfidence signals * (2/10))
    (by linarith [havg.1]) (by linarith [havg.2])
  exact ⟨hw, hw ▸ hb.1, hw ▸ hb.2⟩

/-- C5 witness: the amended winRate theorem instantiated on the empty signal
    list with buffer 5 and capital 100000. -/
theorem win_rate_simulated_witness :
    (backtestStub [] 5 100000 (1/2)).winRate =
      round1 (55 + avgConfidence [] * (2/10)) ∧
    55 ≤ (backtestStub [] 5 100000 (1/2)).winRate ∧
    (backtestStub [] 5 100000 (1/2)).winRate ≤ 75 :=
  win_rate_is_simulated_percentage [] 5 100000 (1/2) (by simp)

lemma lt_nextTradingDay (d : ℤ) : d < nextTradingDay d := by
  rw [nextTradingDay]
  split_ifs <;> omega

lemma le_addTradingDays (n : ℕ) : ∀ d : ℤ, d ≤ addTradingDays d n := by
  induction n with
  | zero => intro d; exact le_refl d
  | succ m ih =>
    intro d
    have h1 : addTradingDays d (m + 1) = addTradingDays (nextTradingDay d) m := rfl
    rw [h1]
    exact (lt_nextTradingDay d).le.trans (ih (nextTradingDay d))

lemma lt_addTradingDays (d : ℤ) (n : ℕ) (hn : 1 ≤ n) : d < addTradingDays d n := by
  cases n with
  | zero => omega
  | succ m =>
    have h1 : addTradingDays d (m + 1) = addTradingDays (nextTradingDay d) m := rfl
    rw [h1]
    exact (lt_nextTradingDay d).trans_le (le_addTradingDays m (nextTradingDay d))

lemma processSignal_trades_sub (cfg : BConfig) (prices : String → ℤ → Option ℚ)
    (st : Portfolio × List Trade) (s : BSignal) :
    ∀ tr ∈ (processSignal cfg prices st s).2,
      tr ∈ st.2 ∨ tr.date = addTradingDays s.timestamp cfg.bufferDays := by
  intro tr htr
  simp only [processSignal] at htr
  split at htr
  · exact Or.inl htr
  · split at htr
    · exact Or.inl htr
    · split_ifs at htr <;>
        simp only [List.mem_append, List.mem_singleton] at htr
      · rcases htr with h | h
        · exact Or.inl h
        · subst h; exact Or.inr rfl
      · rcases htr with h | h
        · exact Or.inl h
        · subst h; exact Or.inr rfl
      · exact Or.inl htr

lemma foldl_trades_sub (cfg : BConfig) (prices : String → ℤ → Option ℚ) :
    ∀ (l : List BSignal) (st : Portfolio × List Trade),
      ∀ tr ∈ (l.foldl (processSignal cfg prices) st).2,
        tr ∈ st.2 ∨ ∃ s ∈ l, tr.date = addTradingDays s.timestamp cfg.bufferDays := by
  intro l
  induction l with
  | nil => intro st tr htr; exact Or.inl htr
  | cons a t ih =>
    intro st tr htr
    rw [List.foldl_cons] at htr
    rcases ih (processSignal cfg prices st a) tr htr with hin | ⟨s, hs, hd⟩
    · rcases processSignal_trades_sub cfg prices st a tr hin with h | h
      · exact Or.inl h
      · exact Or.inr ⟨a, List.mem_cons_self a t, h⟩
    · exact Or.inr ⟨s, List.mem_cons_of_mem a hs, hd⟩

lemma mem_insertByTs {y x : BSignal} {l : List BSignal} (h : y ∈ insertByTs x l) :
    y = x ∨ y ∈ l := by
  induction l with
  | nil =>
    rw [insertByTs] at h
    exact Or.inl (List.mem_singleton.mp h)
  | cons a t ih =>
    rw [insertByTs] at h
    split_ifs at h
    · rcases List.mem_cons.mp h with h1 | h2
      · exact Or.inr (h1 ▸ List.mem_cons_self a t)
      · rcases ih h2 with h3 | h4
        · exact Or.inl h3
        · exact Or.inr (List.mem_cons_of_mem a h4)
    · rcases List.mem_cons.mp h with h1 | h2
      · exact Or.inl h1
      · exact Or.inr h2

lemma mem_sortByTs_aux :
    ∀ (l acc : List BSignal) (y : BSignal),
      y ∈ l.foldl (fun acc x => insertByTs x acc) acc → y ∈ acc ∨ y ∈ l := by
  intro l
  induction l with
  | nil => intro acc y h; exact Or.inl h
  | cons a t ih =>
    intro acc y h
    rw [List.foldl_cons] at h
    rcases ih (insertByTs a acc) y h with h1 | h2
    · rcases mem_insertByTs h1 with h3 | h4
      · exact Or.inr (h3 ▸ List.mem_cons_self a t)
      · exact Or.inl h4
    · exact Or.inr (List.mem_cons_of_mem a h2)

lemma mem_sortByTs {y : BSignal} {l : List BSignal} (h : y ∈ sortByTs l) : y ∈ l := by
  rcases mem_sortByTs_aux l [] y h with h1 | h2
  · exact absurd h1 (List.not_mem_nil y)
  · exact h2

/-- C1 amended: every trade executed by the buffered backtest carries the
    execution date addTradingDays(signal.timestamp, bufferDays) of some input
    signal, which is at least the signal timestamp for every bufferDays and
    strictly after it whenever bufferDays is at least 1; with bufferDays = 0
    execution falls on the signal date itself. -/
theorem execution_strictly_after_signal (signals : List BSignal)
    (prices : String → ℤ → Option ℚ) (cfg : BConfig) (hb : 1 ≤ cfg.bufferDays) :
    ∀ tr ∈ (backtestWithBuffer signals prices cfg).2,
      ∃ s ∈ signals, tr.date = addTradingDays s.timestamp cfg.bufferDays ∧
        s.timestamp < tr.date := by
  intro tr htr
  rw [backtestWithBuffer] at htr
  rcases foldl_trades_sub cfg prices (sortByTs signals) _ tr htr with h | ⟨s, hs, hd⟩
  · exact absurd h (List.not_mem_nil tr)
  · refine ⟨s, mem_sortByTs hs, hd, ?_⟩
    rw [hd]
    exact lt_addTradingDays s.timestamp cfg.bufferDays hb

lemma backtest_buffer0_eval :
    backtestWithBuffer [buySignalX] flatPrices cfgBuffer0 =
      ({ cash := 90000, positions := [("X", 1000)] },
       [⟨"X", Decision.BUY, 1000, 10, 0⟩]) := by
  have hsort : sortByTs [buySignalX] = [buySignalX] := rfl
  rw [backtestWithBuffer, hsort, List.foldl_cons, List.foldl_nil]
  have hd : addTradingDays (0:ℤ) 0 = 0 := rfl
  simp only [processSignal, cfgBuffer0, buySignalX, flatPrices, equityOf, posAdd]
  norm_num [hd, jsRound, Trade.mk.injEq]

lemma backtest_buffer1_eval :
    backtestWithBuffer [buySignalX] flatPrices cfgBuffer1 =
      ({ cash := 90000, positions := [("X", 1000)] },
       [⟨"X", Decision.BUY, 1000, 10, 1⟩]) := by
  have hsort : sortByTs [buySignalX] = [buySignalX] := rfl
  rw [backtestWithBuffer, hsort, List.foldl_cons, List.foldl_nil]
  have hd : addTradingDays (0:ℤ) 1 = 1 := by decide
  simp only [processSignal, cfgBuffer1, buySignalX, flatPrices, equityOf, posAdd]
  norm_num [hd, jsRound, Trade.mk.injEq]

/-- C1 counterexample: with bufferDays = 0 — allowed by the claim, which
    quantifies over every bufferDays ≥ 0 — the engine executes a trade whose
    execution date equals the signal timestamp, day 0, so the execution is
    not strictly after the signal timestamp. -/
theorem zero_buffer_executes_on_signal_date :
    cfgBuffer0.bufferDays = 0 ∧
    (backtestWithBuffer [buySignalX] flatPrices cfgBuffer0).2 =
      [⟨"X", Decision.BUY, 1000, 10, 0⟩] ∧
    Trade.date ⟨"X", Decision.BUY, 1000, 10, 0⟩ ≤ buySignalX.timestamp := by
  refine ⟨rfl, ?_, by decide⟩
  rw [backtest_buffer0_eval]

/-- C1 witness: the amended theorem applied to the one-day-buffer run, whose
    single trade executes on day 1, strictly after its signal of day 0. -/
theorem execution_strictly_after_witness :
    ∃ s ∈ [buySignalX],
      Trade.date ⟨"X", Decision.BUY, 1000, 10, 1⟩ =
        addTradingDays s.timestamp cfgBuffer1.bufferDays ∧
      s.timestamp < Trade.date ⟨"X", Decision.BUY, 1000, 10, 1⟩ :=
  execution_strictly_after_signal [buySignalX] flatPrices cfgBuffer1 (by decide)
    ⟨"X", Decision.BUY, 1000, 10, 1⟩
    (by rw [backtest_buffer1_eval]; exact List.mem_singleton.mpr rfl)

end Stryker
